import Mathlib

/-!
Verification of the K3Y open-session finder (`k3y_open_time_slots.py`,
`k3y_open_time_shifts.py`).

The Python source is shallowly embedded below.  Times are modelled as the
Python code handles them: `HH:MM` strings parsed to hour/minute pairs, with
all arithmetic carried out on minutes-since-midnight.  Python exceptions are
modelled with `Except`; `ValueError` raised for an invalid time zone carries
its message (the code formats one), while `ValueError`s raised by `int()` /
`datetime.strptime` / the `datetime` constructor are collapsed to a single
message-free constructor.  String primitives (`split`, `in`, `int()`,
`strftime`, lexicographic comparison) are re-implemented on `List Char` so
that everything evaluates inside the kernel.
-/

namespace K3Y

/-! ### Character and string primitives -/

/-- Decimal digit test on a character (`'0'`–`'9'`). -/
def isDigitChar (c : Char) : Bool := 48 ≤ c.toNat && c.toNat ≤ 57

/-- The decimal digit character for `n < 10`. -/
def digitChar (n : Nat) : Char := Char.ofNat (48 + n)

/-- Numeric value of a digit string; `none` unless the list is a nonempty
run of decimal digits (the strings `int()` and `strptime` accept as a bare
unsigned number). -/
def digitsToNat (l : List Char) : Option Nat :=
  if l ≠ [] ∧ l.all isDigitChar then
    some (l.foldl (fun a c => a * 10 + (c.toNat - 48)) 0)
  else none

/-- Python `str.split(sep)` for a one-character separator: splits on every
occurrence, keeping empty pieces, and always returns at least one piece. -/
def splitChar (c : Char) : List Char → List (List Char)
  | [] => [[]]
  | a :: as =>
    match splitChar c as with
    | [] => [[a]]
    | h :: t => if a = c then [] :: h :: t else (a :: h) :: t

/-- Does `needle` occur at the head of `hay`? -/
def listStartsWith : List Char → List Char → Bool
  | [], _ => true
  | _ :: _, [] => false
  | a :: as, b :: bs => a = b && listStartsWith as bs

/-- Python's substring containment `needle in hay` on strings (character
lists); the empty needle is contained in everything. -/
def listContainsSub (needle : List Char) : List Char → Bool
  | [] => listStartsWith needle []
  | h@(_ :: t) => listStartsWith needle h || listContainsSub needle t

/-- Python `a in b` on strings. -/
def pyInStr (a b : String) : Bool := listContainsSub a.data b.data

/-- Python string `<` : lexicographic comparison of code points. -/
def charListLt : List Char → List Char → Bool
  | [], [] => false
  | [], _ :: _ => true
  | _ :: _, [] => false
  | a :: as, b :: bs =>
    if a.toNat < b.toNat then true
    else if b.toNat < a.toNat then false
    else charListLt as bs

/-- Python string comparison `s < t`. -/
def strLt (s t : String) : Bool := charListLt s.data t.data

/-- Two-digit zero-padded decimal rendering, as `strftime`'s `%H`, `%M`,
`%I` produce for values below 100. -/
def pad2 (n : Nat) : String := ⟨[digitChar (n / 10 % 10), digitChar (n % 10)]⟩

/-- Python `int(s)`: optional surrounding spaces, optional sign, then a
nonempty digit run; anything else raises `ValueError` (here: `none`). -/
def pyIntParse (s : String) : Option Int :=
  match ((s.data.dropWhile (· = ' ')).reverse.dropWhile (· = ' ')).reverse with
  | '-' :: ds => (digitsToNat ds).map (fun n => -(n : Int))
  | '+' :: ds => (digitsToNat ds).map (fun n => (n : Int))
  | ds => (digitsToNat ds).map (fun n => (n : Int))

/-- `datetime.strptime(s, "%H:%M")`: one colon, 1–2 digit fields, hour
below 24 and minute below 60; `none` models the `ValueError`. -/
def parseHHMM (s : String) : Option (Nat × Nat) :=
  match splitChar ':' s.data with
  | [hs, ms] =>
    if hs.length = 0 ∨ 2 < hs.length ∨ ms.length = 0 ∨ 2 < ms.length then none
    else
      match digitsToNat hs, digitsToNat ms with
      | some h, some m => if h < 24 ∧ m < 60 then some (h, m) else none
      | _, _ => none
  | _ => none

/-- Minutes since midnight of a parsed hour/minute pair. -/
def toMin (p : Nat × Nat) : Nat := p.1 * 60 + p.2

/-! ### Python exceptions -/

/-- The `ValueError`s the embedded code can raise: the explicit
`Invalid TIME_ZONE` raise keeps its formatted message; parse/range errors
from `int()`, `strptime` and the `datetime` constructor are collapsed. -/
inductive PyErr where
  | invalidTimeZone (msg : String)
  | valueError
deriving DecidableEq, Repr

/-! ### Time zone table and converters
(`k3y_open_time_slots.py` lines 28–110; `k3y_open_time_shifts.py` is
textually identical on these definitions) -/

/-- `VALID_TIME_ZONES`, in the source's dict insertion order. -/
def VALID_TIME_ZONES : List (String × Int) :=
  [("EST", -5), ("CST", -6), ("MST", -7), ("PST", -8), ("AKST", -9),
   ("HAST", -10), ("SST", -11), ("CHST", 10)]

/-- The `', '.join(VALID_TIME_ZONES)` of the error f-string: the dict's
keys in insertion order. -/
def zoneJoin : String := "EST, CST, MST, PST, AKST, HAST, SST, CHST"

/-- The message of the `ValueError` raised for an unknown abbreviation. -/
def invalidTzMsg (tz : String) : String :=
  "Invalid TIME_ZONE '" ++ tz ++ "'. Must be one of: " ++ zoneJoin

/-- Dictionary lookup in `VALID_TIME_ZONES`. -/
def lookupZone (tz : String) : Option Int := VALID_TIME_ZONES.lookup tz

/-- `strftime("%I:%M %p")` of a time with hour `h` (< 24) and minute `m`. -/
def fmt12 (h m : Nat) : String :=
  pad2 (if h % 12 = 0 then 12 else h % 12) ++ ":" ++ pad2 m ++ " " ++
    (if h < 12 then "AM" else "PM")

/-- `convert_to_utc` (both files, lines 77–96 / 78–97): validates the zone,
parses via `map(int, s.split(":"))`, range-checks through the `datetime`
constructor, subtracts the offset and formats `%H:%M` (date discarded). -/
def convert_to_utc (local_time_str time_zone_abbr : String) : Except PyErr String :=
  match lookupZone time_zone_abbr with
  | none => .error (.invalidTimeZone (invalidTzMsg time_zone_abbr))
  | some off =>
    match splitChar ':' local_time_str.data with
    | [hs, ms] =>
      match pyIntParse ⟨hs⟩, pyIntParse ⟨ms⟩ with
      | some h, some m =>
        if 0 ≤ h ∧ h < 24 ∧ 0 ≤ m ∧ m < 60 then
          .ok (pad2 (((h - off) % 24).toNat) ++ ":" ++ pad2 m.toNat)
        else .error .valueError
      | _, _ => .error .valueError
    | _ => .error .valueError

/-- `convert_to_local` (both files, lines 99–110 / 100–111): validates the
zone, then inside `try`: parses `%H:%M`, adds the offset, formats
`%I:%M %p`; an unparseable input returns `None` (here `.ok none`). -/
def convert_to_local (utc_time_str time_zone_abbr : String) : Except PyErr (Option String) :=
  match lookupZone time_zone_abbr with
  | none => .error (.invalidTimeZone (invalidTzMsg time_zone_abbr))
  | some off =>
    match parseHHMM utc_time_str with
    | none => .ok none
    | some (h, m) => .ok (some (fmt12 (((h : Int) + off) % 24).toNat m))

/-! ### Hour-slot generation (`generate_hours`, both files) -/

/-- `current.strftime("%H:00")` for a time `cur` minutes after the
midnight of the start day: the hour modulo 24, with a literal `":00"`. -/
def hourLabel (cur : Nat) : String := pad2 (cur / 60 % 24) ++ ":00"

/-- `n` iterations of the `while` body of `generate_hours`: one label per
hour step of 60 minutes. -/
def hoursLoopN : Nat → Nat → List String
  | 0, _ => []
  | n + 1, cur => hourLabel cur :: hoursLoopN n (cur + 60)

/-- The `while current < end` loop of `generate_hours`: `cur` and `e` are
minutes since the midnight of the start day; the loop runs once per started
hour of the span.  Written with its iteration count so that it is
structural (the kernel can evaluate it); `hoursLoop_step` below proves it
satisfies exactly the loop's defining equation. -/
def hoursLoop (cur e : Nat) : List String := hoursLoopN ((e - cur + 59) / 60) cur

/-- `generate_hours` (slots file lines 185–200, shifts file 202–218):
parses both endpoints with `strptime "%H:%M"`, adds a day to the end when
it is earlier than the start, then emits one full-hour label per hour
strictly before the end. -/
def generate_hours (start_time end_time : String) : Except PyErr (List String) :=
  match parseHHMM start_time, parseHHMM end_time with
  | some ps, some pe =>
    let s := toMin ps
    let e0 := toMin pe
    .ok (hoursLoop s (if e0 < s then e0 + 1440 else e0))
  | _, _ => .error .valueError

/-- `set(generate_hours("00:00", "23:00"))`, the "full day" base used by
`find_gaps` (membership-relevant content only, as a list). -/
def full_day_schedule : List String := hoursLoop 0 1380

/-! ### The gap finder (`find_gaps`, both files)

The two `find_gaps` bodies are textually identical except for one line: the
slots file emits `"Date": f"1-{date}"` (line 233) where the shifts file
emits `"Date": f"{date}"` (line 251).  The common body is embedded once as
`find_gaps_core`, parameterised by that date formatting, and the two source
functions are its two instantiations. -/

/-- One entry of the `gaps` list: the dict
`{"Date": …, "Open Slot (UTC)": …, f"Open Slot ({tz})": …}`, with the
dynamically-named local column split into its key (`tzLabel`) and value
(`localSlot`). -/
structure OpenSlotRec where
  date : String
  utcSlot : String
  tzLabel : String
  localSlot : String
deriving DecidableEq, Repr

/-- `daily_hours[date].update(hours)` preceded by
`if date not in daily_hours: daily_hours[date] = set()`: an insertion-order
dictionary mapping a date to the accumulated booked-hour labels (kept as a
list; only membership is ever consulted). -/
def addBooking (m : List (String × List String)) (date : String)
    (hs : List String) : List (String × List String) :=
  match m with
  | [] => [(date, hs)]
  | (d, old) :: rest =>
    if d = date then (d, old ++ hs) :: rest else (d, old) :: addBooking rest date hs

/-- The first loop of `find_gaps`: for every record whose `k3y_area`
contains `area` as a substring (Python `area in k3y_area`), expand the
booked span and union it into that date's entry. -/
def buildDaily (area : String) :
    List (String × String × String × String) → List (String × List String) →
      Except PyErr (List (String × List String))
  | [], m => .ok m
  | (date, start, «end», k3y_area) :: rest, m =>
    if pyInStr area k3y_area then
      match generate_hours start «end» with
      | .error er => .error er
      | .ok hs => buildDaily area rest (addBooking m date hs)
    else buildDaily area rest m

/-- `None` interpolates into an f-string as `"None"`. -/
def pyOptStr (o : Option String) : String := o.getD "None"

/-- The innermost loop body: for each candidate `hour` of a required range,
if it is open, parse it, compute the one-hour end label, convert both ends
to local time, and append the record dict. -/
def emitHours (dateFmt : String → String) (tz date : String)
    (open_slots : List String) : List String → Except PyErr (List OpenSlotRec)
  | [] => .ok []
  | hour :: rest =>
    if open_slots.contains hour then
      match parseHHMM hour with
      | none => .error .valueError
      | some (h, m) =>
        let endMin := h * 60 + m + 60
        let endStr := pad2 (endMin / 60 % 24) ++ ":" ++ pad2 (endMin % 60)
        match convert_to_local hour tz, convert_to_local endStr tz with
        | .ok ls, .ok le' =>
          (emitHours dateFmt tz date open_slots rest).map
            (fun g =>
              { date := dateFmt date,
                utcSlot := hour ++ " - " ++ endStr ++ " UTC",
                tzLabel := "Open Slot (" ++ tz ++ ")",
                localSlot := pyOptStr ls ++ " - " ++ pyOptStr le' } :: g)
        | .error er, _ => .error er
        | .ok _, .error er => .error er
    else emitHours dateFmt tz date open_slots rest

/-- `for start, end in required_ranges`: expand the range and emit its open
hours. -/
def emitRanges (dateFmt : String → String) (tz date : String)
    (open_slots : List String) :
    List (String × String) → Except PyErr (List OpenSlotRec)
  | [] => .ok []
  | (start, «end») :: rest =>
    match generate_hours start «end» with
    | .error er => .error er
    | .ok hrs =>
      match emitHours dateFmt tz date open_slots hrs with
      | .error er => .error er
      | .ok g1 =>
        match emitRanges dateFmt tz date open_slots rest with
        | .error er => .error er
        | .ok g2 => .ok (g1 ++ g2)

/-- `for date, scheduled_hours in daily_hours.items()`: complement the full
day against the scheduled hours (set difference; only membership of the
result is used) and emit the required ranges. -/
def emitDates (dateFmt : String → String) (tz : String)
    (required_ranges : List (String × String)) :
    List (String × List String) → Except PyErr (List OpenSlotRec)
  | [] => .ok []
  | (date, scheduled) :: rest =>
    let open_slots := full_day_schedule.filter (fun h => !scheduled.contains h)
    match emitRanges dateFmt tz date open_slots required_ranges with
    | .error er => .error er
    | .ok g1 =>
      match emitDates dateFmt tz required_ranges rest with
      | .error er => .error er
      | .ok g2 => .ok (g1 ++ g2)

/-- The sort key's second component,
`datetime.strptime(x['Open Slot (UTC)'].split(' ')[0], "%H:%M")`, as
minutes since midnight.  Every record `find_gaps` builds carries a
parseable leading `HH:MM`, so the default `0` for an unparseable slot is
unreachable on the sorted data (Python would raise there). -/
def sortKeyTime (r : OpenSlotRec) : Nat :=
  match parseHHMM ⟨(splitChar ' ' r.utcSlot.data).headD []⟩ with
  | some p => toMin p
  | none => 0

/-- The ascending order of `gaps.sort(key=lambda x: (x['Date'], …))`:
Python tuple comparison of the `Date` string (lexicographic code-point
order) and the parsed UTC start time. -/
def gapLe (a b : OpenSlotRec) : Prop :=
  strLt a.date b.date = true ∨ (a.date = b.date ∧ sortKeyTime a ≤ sortKeyTime b)

instance : DecidableRel gapLe := fun _a _b =>
  inferInstanceAs (Decidable (_ ∨ _ ∧ _))

/-- The common body of the two `find_gaps` functions (see section header);
`dateFmt` is the single differing line.  Python's `list.sort` is a stable
ascending sort, modelled by `List.insertionSort` (stable) over `gapLe`. -/
def find_gaps_core (dateFmt : String → String)
    (data : List (String × String × String × String))
    (required_ranges : List (String × String)) (time_zone_abbr area : String) :
    Except PyErr (List OpenSlotRec) :=
  match buildDaily area data [] with
  | .error er => .error er
  | .ok daily =>
    match emitDates dateFmt time_zone_abbr required_ranges daily with
    | .error er => .error er
    | .ok gaps => .ok (List.insertionSort gapLe gaps)

/-- `find_gaps` of `k3y_open_time_slots.py` (lines 203–241): emits
`"Date": f"1-{date}"`. -/
def find_gaps (data : List (String × String × String × String))
    (required_ranges : List (String × String)) (time_zone_abbr area : String) :
    Except PyErr (List OpenSlotRec) :=
  find_gaps_core (fun d => "1-" ++ d) data required_ranges time_zone_abbr area

/-- `find_gaps` of `k3y_open_time_shifts.py` (lines 221–260): emits
`"Date": f"{date}"`, i.e. the booking date unchanged. -/
def find_gaps_shifts (data : List (String × String × String × String))
    (required_ranges : List (String × String)) (time_zone_abbr area : String) :
    Except PyErr (List OpenSlotRec) :=
  find_gaps_core (fun d => d) data required_ranges time_zone_abbr area

/-- The claim's "natural calendar/date-parsed order" on `MM/DD/YY` date
strings, written from the spec's words (the source never parses its date
strings): the calendar-comparable key `(year, month, day)`. -/
def mdyKey (s : String) : Option (Nat × Nat × Nat) :=
  match splitChar '/' s.data with
  | [ms, ds, ys] =>
    match digitsToNat ms, digitsToNat ds, digitsToNat ys with
    | some m, some d, some y => some (y, m, d)
    | _, _, _ => none
  | _ => none

/-- The only difference between the two `find_gaps` variants, lifted to a
record: prepend `"1-"` to the `Date` field and keep everything else. -/
def prefixDate (r : OpenSlotRec) : OpenSlotRec :=
  { r with date := "1-" ++ r.date }

end K3Y

deriving instance DecidableEq for Except

namespace K3Y

/-! ### Loop and order lemmas -/

/-- `hoursLoop` satisfies the defining equation of the Python loop
`while current < end: hours.append(current.strftime("%H:00")); current += 1h`. -/
theorem hoursLoop_step (cur e : Nat) :
    hoursLoop cur e =
      if cur < e then hourLabel cur :: hoursLoop (cur + 60) e else [] := by
  unfold hoursLoop
  by_cases h : cur < e
  · rw [if_pos h]
    have hc : (e - cur + 59) / 60 = (e - (cur + 60) + 59) / 60 + 1 := by omega
    rw [hc]
    rfl
  · rw [if_neg h]
    have hc : (e - cur + 59) / 60 = 0 := by omega
    rw [hc]
    rfl

theorem charToNat_inj {a b : Char} (h : a.toNat = b.toNat) : a = b :=
  Char.eq_of_val_eq (UInt32.ext_iff.mpr h)

theorem charListLt_trans : ∀ l1 l2 l3 : List Char,
    charListLt l1 l2 = true → charListLt l2 l3 = true → charListLt l1 l3 = true
  | [], [], _ :: _, _, _ => rfl
  | [], _ :: _, _ :: _, _, _ => rfl
  | a :: as, b :: bs, c :: cs, h12, h23 => by
    simp only [charListLt] at h12 h23 ⊢
    split at h12
    · split at h23
      · simp; omega
      · split at h23
        · exact absurd h23 (by simp)
        · have : b.toNat = c.toNat := by omega
          simp; omega
    · split at h12
      · exact absurd h12 (by simp)
      · have hab : a.toNat = b.toNat := by omega
        split at h23
        · simp; omega
        · split at h23
          · exact absurd h23 (by simp)
          · have hbc : b.toNat = c.toNat := by omega
            have : ¬ a.toNat < c.toNat := by omega
            simp only [if_neg this, if_neg (by omega : ¬ c.toNat < a.toNat)]
            exact charListLt_trans as bs cs h12 h23

theorem charListLt_connex : ∀ l1 l2 : List Char,
    charListLt l1 l2 = false → charListLt l2 l1 = false → l1 = l2
  | [], [], _, _ => rfl
  | [], _ :: _, h, _ => by simp [charListLt] at h
  | _ :: _, [], _, h => by simp [charListLt] at h
  | a :: as, b :: bs, h12, h21 => by
    simp only [charListLt] at h12 h21
    split at h12
    · exact absurd h12 (by simp)
    · split at h12
      · split at h21
        · exact absurd h21 (by simp)
        · omega
      · have hab : a = b := charToNat_inj (by omega)
        subst hab
        simp only [if_neg (by omega : ¬ a.toNat < a.toNat)] at h21
        exact congrArg (a :: ·) (charListLt_connex as bs h12 h21)

theorem strLt_trans {a b c : String} (h1 : strLt a b = true) (h2 : strLt b c = true) :
    strLt a c = true :=
  charListLt_trans a.data b.data c.data h1 h2

theorem strLt_connex {a b : String} (h1 : strLt a b = false) (h2 : strLt b a = false) :
    a = b := by
  cases a; cases b
  exact congrArg String.mk (charListLt_connex _ _ h1 h2)

theorem gapLe_total : ∀ a b : OpenSlotRec, gapLe a b ∨ gapLe b a := by
  intro a b
  unfold gapLe
  rcases h1 : strLt a.date b.date with _ | _
  · rcases h2 : strLt b.date a.date with _ | _
    · have he : a.date = b.date := strLt_connex h1 h2
      rcases Nat.le_total (sortKeyTime a) (sortKeyTime b) with h | h
      · exact Or.inl (Or.inr ⟨he, h⟩)
      · exact Or.inr (Or.inr ⟨he.symm, h⟩)
    · exact Or.inr (Or.inl rfl)
  · exact Or.inl (Or.inl rfl)

theorem gapLe_trans : ∀ a b c : OpenSlotRec, gapLe a b → gapLe b c → gapLe a c := by
  intro a b c h1 h2
  unfold gapLe at h1 h2 ⊢
  rcases h1 with h1 | ⟨he1, hk1⟩
  · rcases h2 with h2 | ⟨he2, _⟩
    · exact Or.inl (strLt_trans h1 h2)
    · exact Or.inl (he2 ▸ h1)
  · rcases h2 with h2 | ⟨he2, hk2⟩
    · exact Or.inl (he1 ▸ h2)
    · exact Or.inr ⟨he1.trans he2, le_trans hk1 hk2⟩

/-! ### Claims -/

/-- C1: the claim says that for every date in the booked-hour map the
booked set and the open-slot set are disjoint and their union is the full
24-hour day `{00:00, …, 23:00}`.  The code's "full day" base
`set(generate_hours("00:00", "23:00"))` (its own comment: "Full 24-hour
schedule") holds only the 23 labels `00:00`–`22:00`, so for the single
booking `("01/05/25", "09:00", "10:00", "K3Y/0")` the union of the booked
set `{09:00}` and the computed open set has 23 labels and misses `23:00`;
consequently `find_gaps` reports nothing for the unbooked hour 23:00. -/
theorem c1_union_misses_hour23 :
    buildDaily "K3Y/0" [("01/05/25", "09:00", "10:00", "K3Y/0")] [] =
      .ok [("01/05/25", ["09:00"])] ∧
    full_day_schedule.length = 23 ∧
    "23:00" ∉ full_day_schedule ∧
    "23:00" ∉ (["09:00"] : List String) ∧
    ((["09:00"] : List String) ++
        full_day_schedule.filter (fun h => !(["09:00"] : List String).contains h)).length
      = 23 ∧
    find_gaps [("01/05/25", "09:00", "10:00", "K3Y/0")] [("23:00", "00:00")]
      "EST" "K3Y/0" = .ok [] := by
  decide

/-- C2: the claim says only records whose `area_label` equals the selected
area by string equality are unioned into the booked-hour set.  The code
filters with Python substring containment `area in k3y_area`, so a record
labelled `"K3Y/10"` leaks into the booked set of query area `"K3Y/1"`
(`"K3Y/10" ≠ "K3Y/1"`), and with that foreign record booking the whole day
`find_gaps` reports no open slot for `"K3Y/1"`.  The claim's own example
does hold: a `"K3Y/3"` record is not a superstring match for `"K3Y/4"`,
so it never enters the `"K3Y/4"` booked set. -/
theorem c2_substring_match_leaks :
    buildDaily "K3Y/1" [("01/05/25", "09:00", "10:00", "K3Y/10")] [] =
      .ok [("01/05/25", ["09:00"])] ∧
    ("K3Y/10" : String) ≠ "K3Y/1" ∧
    find_gaps [("01/05/25", "00:00", "23:00", "K3Y/10")] [("09:00", "10:00")]
      "EST" "K3Y/1" = .ok [] ∧
    buildDaily "K3Y/4" [("01/05/25", "09:00", "10:00", "K3Y/3")] [] = .ok [] := by
  decide

/-- C3: on bookings `("01/05/25","09:00","11:00","K3Y/0")` and
`("01/05/25","14:00","15:00","K3Y/0")`, required UTC range `08:00`–`16:00`,
area `"K3Y/0"`, zone `"EST"` (offset −5), `find_gaps` returns exactly one
record per open UTC hour `{08:00, 11:00, 12:00, 13:00, 15:00}`, each UTC
label `"<hour> - <hour+1> UTC"` and each local label shifted back 5 hours
(UTC `08:00-09:00` ↦ `03:00 AM - 04:00 AM`). -/
theorem c3_end_to_end_scenario :
    find_gaps [("01/05/25", "09:00", "11:00", "K3Y/0"),
               ("01/05/25", "14:00", "15:00", "K3Y/0")]
        [("08:00", "16:00")] "EST" "K3Y/0" =
      .ok [⟨"1-01/05/25", "08:00 - 09:00 UTC", "Open Slot (EST)", "03:00 AM - 04:00 AM"⟩,
           ⟨"1-01/05/25", "11:00 - 12:00 UTC", "Open Slot (EST)", "06:00 AM - 07:00 AM"⟩,
           ⟨"1-01/05/25", "12:00 - 13:00 UTC", "Open Slot (EST)", "07:00 AM - 08:00 AM"⟩,
           ⟨"1-01/05/25", "13:00 - 14:00 UTC", "Open Slot (EST)", "08:00 AM - 09:00 AM"⟩,
           ⟨"1-01/05/25", "15:00 - 16:00 UTC", "Open Slot (EST)", "10:00 AM - 11:00 AM"⟩] := by
  decide

/-- C4 (counterexample): the claim says dates sort in natural
calendar/date-parsed order, not pure lexicographic string order.  With the
non-zero-padded dates `1/10/25` (Jan 10) and `1/2/25` (Jan 2) — parsed
calendar keys `(25,1,10)` and `(25,1,2)`, so Jan 2 is calendar-earlier —
`find_gaps` places the `1/10/25` entry first, because it compares the
`Date` strings lexicographically (`"1-1/10/25" < "1-1/2/25"` as strings). -/
theorem c4_lexicographic_counterexample :
    find_gaps [("1/10/25", "01:00", "23:00", "K3Y/0"),
               ("1/2/25", "01:00", "23:00", "K3Y/0")]
        [("00:00", "01:00")] "EST" "K3Y/0" =
      .ok [⟨"1-1/10/25", "00:00 - 01:00 UTC", "Open Slot (EST)", "07:00 PM - 08:00 PM"⟩,
           ⟨"1-1/2/25", "00:00 - 01:00 UTC", "Open Slot (EST)", "07:00 PM - 08:00 PM"⟩] ∧
    mdyKey "1/2/25" = some (25, 1, 2) ∧
    mdyKey "1/10/25" = some (25, 1, 10) ∧
    strLt "1-1/10/25" "1-1/2/25" = true := by
  decide

/-- C4 (amended): every list `find_gaps` returns is sorted ascending by
the key pair (`Date` string in lexicographic code-point order, parsed UTC
start hour) — the relation `gapLe`; for the equal-length zero-padded
`MM/DD/YY` dates the schedule supplies, this coincides with calendar
order. -/
theorem c4_sorted_by_date_string_then_hour :
    ∀ data required_ranges tz area l,
      find_gaps data required_ranges tz area = .ok l → List.Sorted gapLe l := by
  intro data rs tz area l h
  unfold find_gaps find_gaps_core at h
  cases hb : buildDaily area data [] with
  | error er => rw [hb] at h; exact absurd h (by simp)
  | ok daily =>
    rw [hb] at h
    dsimp only at h
    cases he : emitDates (fun d => "1-" ++ d) tz rs daily with
    | error er => rw [he] at h; exact absurd h (by simp)
    | ok gaps =>
      rw [he] at h
      dsimp only at h
      have hl : List.insertionSort gapLe gaps = l := by
        injection h
      subst hl
      have ht : IsTotal OpenSlotRec gapLe := ⟨gapLe_total⟩
      have htr : IsTrans OpenSlotRec gapLe := ⟨gapLe_trans⟩
      exact List.sorted_insertionSort gapLe gaps

/-- Witness for C4 (amended): a run on two zero-padded dates given in
reverse order; the result is `gapLe`-sorted, with the `01/02/25` entry
before the `01/10/25` entry. -/
theorem c4_sorted_by_date_string_then_hour_witness :
    List.Sorted gapLe
      [⟨"1-01/02/25", "00:00 - 01:00 UTC", "Open Slot (EST)", "07:00 PM - 08:00 PM"⟩,
       ⟨"1-01/10/25", "00:00 - 01:00 UTC", "Open Slot (EST)", "07:00 PM - 08:00 PM"⟩] :=
  c4_sorted_by_date_string_then_hour
    [("01/10/25", "01:00", "23:00", "K3Y/0"), ("01/02/25", "01:00", "23:00", "K3Y/0")]
    [("00:00", "01:00")] "EST" "K3Y/0" _ (by decide)

/-- C5: `generate_hours("22:00","02:00")` yields exactly
`["22:00","23:00","00:00","01:00"]`; in general, whenever the parsed end
time is earlier than the parsed start time, the span wraps past midnight:
a day (1440 minutes) is added to the end before the hourly loop runs. -/
theorem c5_wraps_past_midnight :
    generate_hours "22:00" "02:00" = .ok ["22:00", "23:00", "00:00", "01:00"] ∧
    ∀ s e ps pe, parseHHMM s = some ps → parseHHMM e = some pe →
      toMin pe < toMin ps →
      generate_hours s e = .ok (hoursLoop (toMin ps) (toMin pe + 1440)) := by
  refine ⟨by decide, ?_⟩
  intro s e ps pe hs he hlt
  unfold generate_hours
  rw [hs, he]
  simp [hlt]

/-- Witness for C5: the wrap rule applied at `23:30`–`01:00`. -/
theorem c5_wraps_past_midnight_witness :
    generate_hours "23:30" "01:00" = .ok ["23:00", "00:00"] := by
  have h := c5_wraps_past_midnight.2 "23:30" "01:00" (23, 30) (1, 0)
    (by decide) (by decide) (by decide)
  rw [h]
  decide

/-- C6: for every zone of the fixed 8-entry offset table and every whole
hour `h`, converting local `h:00` to UTC and back yields `h` again, in
12-hour form with the AM/PM label matching the half of the day of `h`
(`AM` exactly when `h < 12`, hour digits `h mod 12`, with `12` for `0`). -/
theorem c6_round_trip :
    ∀ p ∈ VALID_TIME_ZONES, ∀ h : Nat, h < 24 →
      ((convert_to_utc (pad2 h ++ ":00") p.1).bind fun u => convert_to_local u p.1) =
        .ok (some (pad2 (if h % 12 = 0 then 12 else h % 12) ++ ":00 " ++
          (if h < 12 then "AM" else "PM"))) := by
  decide

/-- Witness for C6: the round trip at `13:00` `"EST"`. -/
theorem c6_round_trip_witness :
    ((convert_to_utc (pad2 13 ++ ":00") "EST").bind fun u => convert_to_local u "EST") =
      .ok (some (pad2 (if 13 % 12 = 0 then 12 else 13 % 12) ++ ":00 " ++
        (if 13 < 12 then "AM" else "PM"))) :=
  c6_round_trip ("EST", -5) (by decide) 13 (by decide)

/-- A successful `%H:%M` parse yields an hour below 24 and a minute below
60 (so a time below 1440 minutes). -/
theorem parseHHMM_bounds {s : String} {p : Nat × Nat} (hp : parseHHMM s = some p) :
    p.1 < 24 ∧ p.2 < 60 := by
  unfold parseHHMM at hp
  split at hp
  · split at hp
    · exact absurd hp (by simp)
    · split at hp
      · split at hp
        · rename_i hcond
          injection hp with hq
          subst hq
          exact hcond
        · exact absurd hp (by simp)
      · exact absurd hp (by simp)
  · exact absurd hp (by simp)

/-- C7 (counterexample): the claim says `generate_hours` is non-empty for
every valid pair including `start == end`; but on equal endpoints the loop
body never runs and the result is the empty list. -/
theorem c7_equal_endpoints_empty :
    generate_hours "08:00" "08:00" = .ok ([] : List String) := by
  decide

/-- C7 (amended): on every pair of valid `HH:MM` inputs `generate_hours`
returns a finite list (it is a total pure function, never erroring on
parsed inputs), and that list is non-empty exactly when the two parsed
times differ; for equal parsed times (such as `start == end`) it is empty. -/
theorem c7_finite_nonempty_unless_equal :
    ∀ s e ps pe, parseHHMM s = some ps → parseHHMM e = some pe →
      ∃ l, generate_hours s e = .ok l ∧
        (toMin ps ≠ toMin pe → l ≠ []) ∧ (toMin ps = toMin pe → l = []) := by
  intro s e ps pe hs he
  obtain ⟨hs1, hs2⟩ := parseHHMM_bounds hs
  have hlt1440 : toMin ps < 1440 := by unfold toMin; omega
  unfold generate_hours
  rw [hs, he]
  dsimp only
  refine ⟨_, rfl, ?_, ?_⟩
  · intro hne
    by_cases hlt : toMin pe < toMin ps
    · rw [if_pos hlt, hoursLoop_step, if_pos (by omega : toMin ps < toMin pe + 1440)]
      simp
    · have hlt2 : toMin ps < toMin pe := by omega
      rw [if_neg hlt, hoursLoop_step, if_pos hlt2]
      simp
  · intro heq
    rw [heq, if_neg (lt_irrefl _), hoursLoop_step, if_neg (lt_irrefl _)]

/-- Witness for C7 (amended): `08:00`–`09:30` parses on both sides, the
parsed times differ, and the returned list is non-empty. -/
theorem c7_finite_nonempty_unless_equal_witness :
    ∃ l, generate_hours "08:00" "09:30" = .ok l ∧
      (toMin (8, 0) ≠ toMin (9, 30) → l ≠ []) ∧
      (toMin (8, 0) = toMin (9, 30) → l = []) :=
  c7_finite_nonempty_unless_equal "08:00" "09:30" (8, 0) (9, 30)
    (by decide) (by decide)

/-- C8: for every time string and every abbreviation outside the fixed
8-entry set, `convert_to_utc` fails fast with the configuration
`ValueError` whose message names all 8 valid abbreviations — it never
returns a result computed from a substituted default zone (and
`convert_to_local` rejects the same way). -/
theorem c8_invalid_zone_rejected :
    ∀ t tz : String,
      tz ∉ (["EST", "CST", "MST", "PST", "AKST", "HAST", "SST", "CHST"] : List String) →
      convert_to_utc t tz =
        .error (.invalidTimeZone ("Invalid TIME_ZONE '" ++ tz ++ "'. Must be one of: " ++
          "EST, CST, MST, PST, AKST, HAST, SST, CHST")) ∧
      convert_to_local t tz =
        .error (.invalidTimeZone ("Invalid TIME_ZONE '" ++ tz ++ "'. Must be one of: " ++
          "EST, CST, MST, PST, AKST, HAST, SST, CHST")) := by
  intro t tz htz
  simp only [List.mem_cons, List.not_mem_nil, or_false, not_or] at htz
  obtain ⟨h1, h2, h3, h4, h5, h6, h7, h8⟩ := htz
  have hl : lookupZone tz = none := by
    unfold lookupZone VALID_TIME_ZONES
    simp [List.lookup, beq_eq_false_iff_ne.mpr h1, beq_eq_false_iff_ne.mpr h2,
      beq_eq_false_iff_ne.mpr h3, beq_eq_false_iff_ne.mpr h4,
      beq_eq_false_iff_ne.mpr h5, beq_eq_false_iff_ne.mpr h6,
      beq_eq_false_iff_ne.mpr h7, beq_eq_false_iff_ne.mpr h8]
  constructor
  · unfold convert_to_utc
    rw [hl]
    rfl
  · unfold convert_to_local
    rw [hl]
    rfl

/-- A list of digit characters loses nothing to a space-stripping
`dropWhile`. -/
theorem dropWhile_space_of_digits {l : List Char} (h : l.all isDigitChar = true) :
    l.dropWhile (· = ' ') = l := by
  cases l with
  | nil => rfl
  | cons c cs =>
    simp only [List.all_cons, Bool.and_eq_true] at h
    have hc : ¬(c = ' ') := by
      intro hc
      subst hc
      exact absurd h.1 (by decide)
    simp [List.dropWhile_cons, hc]

/-- `int()` accepts every nonempty bare digit run that `digitsToNat`
accepts, with the same value. -/
theorem pyIntParse_digits {l : List Char} {n : Nat} (hd : digitsToNat l = some n) :
    pyIntParse ⟨l⟩ = some (n : Int) := by
  have hne : l ≠ [] ∧ l.all isDigitChar = true := by
    unfold digitsToNat at hd
    split at hd
    · rename_i hcond
      exact hcond
    · exact absurd hd (by simp)
  obtain ⟨hne, hall⟩ := hne
  have h1 : l.dropWhile (· = ' ') = l := dropWhile_space_of_digits hall
  have h2 : l.reverse.dropWhile (· = ' ') = l.reverse :=
    dropWhile_space_of_digits (by rwa [List.all_reverse])
  unfold pyIntParse
  dsimp only
  rw [h1, h2, List.reverse_reverse]
  split
  · rename_i ds
    exfalso
    simp only [List.all_cons, Bool.and_eq_true] at hall
    exact absurd hall.1 (by decide)
  · rename_i ds
    exfalso
    simp only [List.all_cons, Bool.and_eq_true] at hall
    exact absurd hall.1 (by decide)
  · rw [hd]
    rfl

/-- If the minute field is not a bare integer, `strptime "%H:%M"` cannot
parse the whole string either. -/
theorem parseHHMM_none_of_minute_not_int {s : String} {hs ms : List Char}
    (hsplit : splitChar ':' s.data = [hs, ms]) (hm : pyIntParse ⟨ms⟩ = none) :
    parseHHMM s = none := by
  have hd : digitsToNat ms = none := by
    cases hdm : digitsToNat ms with
    | none => rfl
    | some n =>
      rw [pyIntParse_digits hdm] at hm
      exact absurd hm (by simp)
  unfold parseHHMM
  rw [hsplit]
  dsimp only
  rw [hd]
  by_cases hlen : hs.length = 0 ∨ 2 < hs.length ∨ ms.length = 0 ∨ 2 < ms.length
  · rw [if_pos hlen]
  · rw [if_neg hlen]
    cases digitsToNat hs <;> rfl

/-- C9: for every valid time zone abbreviation and every local time string
whose minute field is not a bare integer (such as the 12-hour form
`"07:00 AM"` that the settings store can supply), `convert_to_utc` raises
an unhandled `ValueError` from integer parsing, whereas `convert_to_local`
on the same input returns the null result `None` instead of raising. -/
theorem c9_nonint_minute_raises :
    ∀ tz off, lookupZone tz = some off →
      ∀ (s : String) (hs ms : List Char), splitChar ':' s.data = [hs, ms] →
        (pyIntParse ⟨hs⟩).isSome → pyIntParse ⟨ms⟩ = none →
        convert_to_utc s tz = .error .valueError ∧
        convert_to_local s tz = .ok none := by
  intro tz off hz s hs ms hsplit hhs hms
  constructor
  · unfold convert_to_utc
    rw [hz]
    dsimp only
    rw [hsplit]
    dsimp only
    obtain ⟨h, hh⟩ := Option.isSome_iff_exists.mp hhs
    rw [hh, hms]
  · unfold convert_to_local
    rw [hz]
    dsimp only
    rw [parseHHMM_none_of_minute_not_int hsplit hms]

/-- Witness for C9: `("07:00 AM", "EST")` — UTC conversion raises, local
conversion returns `None`. -/
theorem c9_nonint_minute_raises_witness :
    convert_to_utc "07:00 AM" "EST" = .error .valueError ∧
    convert_to_local "07:00 AM" "EST" = .ok none :=
  c9_nonint_minute_raises "EST" (-5) (by decide) "07:00 AM"
    "07".data "00 AM".data (by decide) (by decide) (by decide)

/-- Witness for C8: the rejection at `("09:00", "XYZ")`. -/
theorem c8_invalid_zone_rejected_witness :
    convert_to_utc "09:00" "XYZ" =
      .error (.invalidTimeZone ("Invalid TIME_ZONE '" ++ "XYZ" ++ "'. Must be one of: " ++
        "EST, CST, MST, PST, AKST, HAST, SST, CHST")) ∧
    convert_to_local "09:00" "XYZ" =
      .error (.invalidTimeZone ("Invalid TIME_ZONE '" ++ "XYZ" ++ "'. Must be one of: " ++
        "EST, CST, MST, PST, AKST, HAST, SST, CHST")) :=
  c8_invalid_zone_rejected "09:00" "XYZ" (by decide)

/-! ### The two `find_gaps` variants differ only in the `Date` field -/

theorem data_pfx (x : String) : ("1-" ++ x).data = '1' :: '-' :: x.data := rfl

theorem prefix_cancel {x y : String} : ("1-" ++ x = "1-" ++ y) ↔ x = y := by
  constructor
  · intro h
    have hd : ('1' :: '-' :: x.data) = ('1' :: '-' :: y.data) := by
      rw [← data_pfx, ← data_pfx, h]
    have hxy : x.data = y.data := by
      injection hd with _ h2
      injection h2
    cases x
    cases y
    exact congrArg String.mk hxy
  · intro h
    rw [h]

theorem charListLt_cons_same (c : Char) (as bs : List Char) :
    charListLt (c :: as) (c :: bs) = charListLt as bs := by
  simp [charListLt]

theorem strLt_pfx (x y : String) : strLt ("1-" ++ x) ("1-" ++ y) = strLt x y := by
  unfold strLt
  rw [data_pfx, data_pfx, charListLt_cons_same, charListLt_cons_same]

/-- Prepending `"1-"` to both `Date` fields changes neither the comparison
of the sort keys. -/
theorem gapLe_prefixDate {a b : OpenSlotRec} :
    gapLe (prefixDate a) (prefixDate b) ↔ gapLe a b := by
  unfold gapLe prefixDate
  dsimp only
  rw [strLt_pfx]
  constructor
  · rintro (h | ⟨he, hk⟩)
    · exact Or.inl h
    · exact Or.inr ⟨prefix_cancel.mp he, hk⟩
  · rintro (h | ⟨he, hk⟩)
    · exact Or.inl h
    · exact Or.inr ⟨prefix_cancel.mpr he, hk⟩

theorem orderedInsert_map_prefixDate (x : OpenSlotRec) (l : List OpenSlotRec) :
    List.orderedInsert gapLe (prefixDate x) (l.map prefixDate) =
      (List.orderedInsert gapLe x l).map prefixDate := by
  induction l with
  | nil => rfl
  | cons y ys ih =>
    simp only [List.map_cons, List.orderedInsert]
    by_cases h : gapLe x y
    · rw [if_pos (gapLe_prefixDate.mpr h), if_pos h]
      simp
    · rw [if_neg (fun hc => h (gapLe_prefixDate.mp hc)), if_neg h, ih]
      simp

theorem insertionSort_map_prefixDate (l : List OpenSlotRec) :
    List.insertionSort gapLe (l.map prefixDate) =
      (List.insertionSort gapLe l).map prefixDate := by
  induction l with
  | nil => rfl
  | cons x xs ih =>
    simp only [List.map_cons, List.insertionSort, ih, orderedInsert_map_prefixDate]

theorem emitHours_pfx (tz date : String) (os hrs : List String) :
    emitHours (fun d => "1-" ++ d) tz date os hrs =
      Except.map (List.map prefixDate) (emitHours (fun d => d) tz date os hrs) := by
  induction hrs with
  | nil => rfl
  | cons hour rest ih =>
    simp only [emitHours]
    split
    · split
      · rfl
      · split
        · rw [ih]
          cases emitHours (fun d => d) tz date os rest <;> rfl
        · rfl
        · rfl
    · exact ih

theorem emitRanges_pfx (tz date : String) (os : List String)
    (rs : List (String × String)) :
    emitRanges (fun d => "1-" ++ d) tz date os rs =
      Except.map (List.map prefixDate) (emitRanges (fun d => d) tz date os rs) := by
  induction rs with
  | nil => rfl
  | cons r rest ih =>
    obtain ⟨s, e⟩ := r
    simp only [emitRanges]
    cases hg : generate_hours s e with
    | error er => rfl
    | ok hrs =>
      dsimp only
      rw [emitHours_pfx]
      cases hh : emitHours (fun d => d) tz date os hrs with
      | error er => rfl
      | ok g1 =>
        dsimp only
        rw [ih]
        cases hr : emitRanges (fun d => d) tz date os rest with
        | error er => rfl
        | ok g2 =>
          simp [Except.map, List.map_append]

theorem emitDates_pfx (tz : String) (rs : List (String × String))
    (daily : List (String × List String)) :
    emitDates (fun d => "1-" ++ d) tz rs daily =
      Except.map (List.map prefixDate) (emitDates (fun d => d) tz rs daily) := by
  induction daily with
  | nil => rfl
  | cons p rest ih =>
    obtain ⟨date, scheduled⟩ := p
    simp only [emitDates]
    rw [emitRanges_pfx]
    cases h1 : emitRanges (fun d => d) tz date
        (full_day_schedule.filter fun h => !scheduled.contains h) rs with
    | error er => rfl
    | ok g1 =>
      dsimp only
      rw [ih]
      cases h2 : emitDates (fun d => d) tz rs rest with
      | error er => rfl
      | ok g2 =>
        simp [Except.map, List.map_append]

/-- The whole pipelines agree up to prepending `"1-"` to every `Date`. -/
theorem find_gaps_eq_map_shifts
    (data : List (String × String × String × String))
    (rs : List (String × String)) (tz area : String) :
    find_gaps data rs tz area =
      Except.map (List.map prefixDate) (find_gaps_shifts data rs tz area) := by
  unfold find_gaps find_gaps_shifts find_gaps_core
  cases hb : buildDaily area data [] with
  | error er => rfl
  | ok daily =>
    dsimp only
    rw [emitDates_pfx]
    cases he : emitDates (fun d => d) tz rs daily with
    | error er => rfl
    | ok gaps =>
      simp only [Except.map]
      rw [insertionSort_map_prefixDate]

/-- C10: on identical inputs the two `find_gaps` implementations return
lists of equal length whose records agree element-wise on every field
except `Date`; the `k3y_open_time_slots` variant's `Date` is `"1-"`
prepended to the `k3y_open_time_shifts` variant's `Date`. -/
theorem c10_slots_equals_shifts_except_date :
    ∀ data rs tz area l₁ l₂,
      find_gaps data rs tz area = .ok l₁ →
      find_gaps_shifts data rs tz area = .ok l₂ →
      l₁.length = l₂.length ∧
      ∀ i (h₁ : i < l₁.length) (h₂ : i < l₂.length),
        (l₁.get ⟨i, h₁⟩).date = "1-" ++ (l₂.get ⟨i, h₂⟩).date ∧
        (l₁.get ⟨i, h₁⟩).utcSlot = (l₂.get ⟨i, h₂⟩).utcSlot ∧
        (l₁.get ⟨i, h₁⟩).tzLabel = (l₂.get ⟨i, h₂⟩).tzLabel ∧
        (l₁.get ⟨i, h₁⟩).localSlot = (l₂.get ⟨i, h₂⟩).localSlot := by
  intro data rs tz area l₁ l₂ h1 h2
  have hm := find_gaps_eq_map_shifts data rs tz area
  rw [h1, h2] at hm
  have hl : l₁ = l₂.map prefixDate := by
    simpa [Except.map] using hm
  subst hl
  refine ⟨by simp, ?_⟩
  intro i h₁ h₂
  have hg : (l₂.map prefixDate).get ⟨i, h₁⟩ = prefixDate (l₂.get ⟨i, h₂⟩) := by
    simp
  rw [hg]
  exact ⟨rfl, rfl, rfl, rfl⟩

/-- Witness for C10: the correspondence at a one-booking input. -/
theorem c10_slots_equals_shifts_except_date_witness :
    ([⟨"1-01/05/25", "08:00 - 09:00 UTC", "Open Slot (EST)", "03:00 AM - 04:00 AM"⟩] :
        List OpenSlotRec).length =
      ([⟨"01/05/25", "08:00 - 09:00 UTC", "Open Slot (EST)", "03:00 AM - 04:00 AM"⟩] :
        List OpenSlotRec).length ∧
    ∀ i (h₁ : i < ([⟨"1-01/05/25", "08:00 - 09:00 UTC", "Open Slot (EST)",
          "03:00 AM - 04:00 AM"⟩] : List OpenSlotRec).length)
      (h₂ : i < ([⟨"01/05/25", "08:00 - 09:00 UTC", "Open Slot (EST)",
          "03:00 AM - 04:00 AM"⟩] : List OpenSlotRec).length),
        (([⟨"1-01/05/25", "08:00 - 09:00 UTC", "Open Slot (EST)",
            "03:00 AM - 04:00 AM"⟩] : List OpenSlotRec).get ⟨i, h₁⟩).date =
          "1-" ++ (([⟨"01/05/25", "08:00 - 09:00 UTC", "Open Slot (EST)",
            "03:00 AM - 04:00 AM"⟩] : List OpenSlotRec).get ⟨i, h₂⟩).date ∧
        (([⟨"1-01/05/25", "08:00 - 09:00 UTC", "Open Slot (EST)",
            "03:00 AM - 04:00 AM"⟩] : List OpenSlotRec).get ⟨i, h₁⟩).utcSlot =
          (([⟨"01/05/25", "08:00 - 09:00 UTC", "Open Slot (EST)",
            "03:00 AM - 04:00 AM"⟩] : List OpenSlotRec).get ⟨i, h₂⟩).utcSlot ∧
        (([⟨"1-01/05/25", "08:00 - 09:00 UTC", "Open Slot (EST)",
            "03:00 AM - 04:00 AM"⟩] : List OpenSlotRec).get ⟨i, h₁⟩).tzLabel =
          (([⟨"01/05/25", "08:00 - 09:00 UTC", "Open Slot (EST)",
            "03:00 AM - 04:00 AM"⟩] : List OpenSlotRec).get ⟨i, h₂⟩).tzLabel ∧
        (([⟨"1-01/05/25", "08:00 - 09:00 UTC", "Open Slot (EST)",
            "03:00 AM - 04:00 AM"⟩] : List OpenSlotRec).get ⟨i, h₁⟩).localSlot =
          (([⟨"01/05/25", "08:00 - 09:00 UTC", "Open Slot (EST)",
            "03:00 AM - 04:00 AM"⟩] : List OpenSlotRec).get ⟨i, h₂⟩).localSlot :=
  c10_slots_equals_shifts_except_date
    [("01/05/25", "09:00", "11:00", "K3Y/0")] [("08:00", "10:00")] "EST" "K3Y/0"
    [⟨"1-01/05/25", "08:00 - 09:00 UTC", "Open Slot (EST)", "03:00 AM - 04:00 AM"⟩]
    [⟨"01/05/25", "08:00 - 09:00 UTC", "Open Slot (EST)", "03:00 AM - 04:00 AM"⟩]
    (by decide) (by decide)

end K3Y
